import Mathlib

/-!
# Verification of the BlueBrain/citation-graph entity-resolution core

This file is a shallow embedding, in Lean 4, of the record-linkage core of the
`citation-graph` pipeline:

* the identity normalizers (`citations/utils.py` and
  `citations/scripts/combine_serp.py`),
* the author matcher/merger (`process_authors` in `combine_serp.py`),
* the article matcher/merger (`process_articles` in `combine_serp.py`),
* the citation-edge assembly (`process_article_cites_article` in
  `combine_serp.py` and the self-citation filter of `fetch_citation_ids` in
  `citations/data_sources/europmc.py`),
* the output ordering of `gather_articles.py`,
* the fallback institution-id hash (`generate_unique_id` in
  `citations/utils.py`, used by `get_author_affiliations` in
  `citations/data_sources/orcid.py`), including a full embedding of SHA-256.

Strings are modelled as lists of Unicode code points (`List Nat`); the helper
`str` converts a Lean string literal into that representation.  Character
classes (`\w`, `\s`, `string.punctuation`, `str.lower`) are modelled on the
ASCII range, which covers every string manipulated by the claims.  Pandas
DataFrames are modelled as lists of records; `pd.merge(..., how="outer")` with
`sort=False` is modelled as a left-major outer join followed by the right-only
rows in right order, and `drop_duplicates(keep="first")` as first-occurrence
key deduplication.
-/

namespace CitationGraph

/-- Strings of the Python source, modelled as lists of Unicode code points. -/
abbrev Str := List Nat

/-- Converts a Lean string literal to the code-point model. -/
def str (s : String) : Str := s.toList.map Char.toNat

/-- Python `str.lower()` restricted to ASCII: maps `A`–`Z` to `a`–`z`. -/
def pyLower (n : Nat) : Nat := if 65 ≤ n ∧ n ≤ 90 then n + 32 else n

/-- Python `\s` (whitespace) on ASCII: space, tab, LF, VT, FF, CR. -/
def isSpaceCp (n : Nat) : Bool := n = 32 || n = 9 || n = 10 || n = 11 || n = 12 || n = 13

/-- ASCII letters, `a`–`z` or `A`–`Z`. -/
def isAlphaCp (n : Nat) : Bool := (65 ≤ n && n ≤ 90) || (97 ≤ n && n ≤ 122)

/-- ASCII digits `0`–`9`. -/
def isDigitCp (n : Nat) : Bool := 48 ≤ n && n ≤ 57

/-- Python `\w` on ASCII: letters, digits, and underscore. -/
def isWordCp (n : Nat) : Bool := isAlphaCp n || isDigitCp n || n = 95

/-- Membership in the Python constant `string.punctuation`. -/
def isPunctCp (n : Nat) : Bool :=
  (33 ≤ n && n ≤ 47) || (58 ≤ n && n ≤ 64) || (91 ≤ n && n ≤ 96) || (123 ≤ n && n ≤ 126)

/-- Membership in `string.punctuation + string.whitespace`. -/
def isPunctWsCp (n : Nat) : Bool := isPunctCp n || isSpaceCp n

/-- Removes trailing code points satisfying `p` (the tail half of `str.strip`). -/
def dropTrail (p : Nat → Bool) (l : Str) : Str := (l.reverse.dropWhile p).reverse

/-- Python `str.strip(chars)`: removes leading and trailing code points
satisfying `p`. -/
def stripBoth (p : Nat → Bool) (l : Str) : Str := dropTrail p (l.dropWhile p)

/-- `normalize_title` of `combine_serp.py`:
`re.sub(r"[^\w\s]", "", title.lower())`. -/
def serpNormalizeTitle (s : Str) : Str :=
  (s.map pyLower).filter (fun c => isWordCp c || isSpaceCp c)

/-- `normalize_author_name` of `combine_serp.py` on a non-null name:
`re.sub(r"[^\w\s]", "", str(name).lower()).strip()`. -/
def normalizeAuthorName (s : Str) : Str :=
  stripBoth isSpaceCp ((s.map pyLower).filter (fun c => isWordCp c || isSpaceCp c))

/-- `normalize_author_name` including the `pd.isna(name)` guard, which
returns the empty string on a missing name. -/
def normalizeAuthorNameOpt (s : Option Str) : Str :=
  match s with
  | none => []
  | some s => normalizeAuthorName s

/-- `normalize_title` of `citations/utils.py`: keep letters and whitespace,
delete all whitespace, lowercase, strip punctuation and whitespace, truncate
to 30 code points, strip again. -/
def utilsNormalizeTitle (s : Str) : Str :=
  let t1 := s.filter (fun c => isAlphaCp c || isSpaceCp c)
  let t2 := t1.filter (fun c => !isSpaceCp c)
  let t3 := t2.map pyLower
  let t4 := stripBoth isPunctWsCp t3
  stripBoth isPunctWsCp (t4.take 30)

/-- One step of Python `str.split()`: prepend a code point to the word list,
starting a new word at every whitespace boundary. -/
def splitWsStep (c : Nat) (acc : List Str) : List Str :=
  if isSpaceCp c then [] :: acc
  else
    match acc with
    | [] => [[c]]
    | w :: ws => (c :: w) :: ws

/-- Python `str.split()` (no argument): whitespace-delimited words, with no
empty words. -/
def splitWs (l : Str) : List Str :=
  (l.foldr splitWsStep []).filter (fun w => !w.isEmpty)

/-- `get_initials` of `combine_serp.py`: the first code point of each word. -/
def getInitials (l : Str) : Str :=
  (splitWs l).map (fun w => w.headD 0)

/-- `get_last_name` of `combine_serp.py`: the final word, or the empty string. -/
def getLastName (l : Str) : Str :=
  (splitWs l).getLastD []

/-- One row of the longest-common-subsequence dynamic program: `prev` is the
previous row starting at column `j - 1`, `left` is the entry just computed in
the current row. -/
def lcsStepRow (a : Nat) : Str → List Nat → Nat → List Nat
  | [], _, _ => []
  | b :: bs, prev, left =>
    let diag := prev.headD 0
    let up := (prev.tailD []).headD 0
    let cur := if a = b then diag + 1 else max left up
    cur :: lcsStepRow a bs (prev.tailD []) cur

/-- Length of a longest common subsequence of two code-point strings, by the
standard row-by-row dynamic program. -/
def lcsLen (s1 s2 : Str) : Nat :=
  let finalRow := s1.foldl (fun row a => 0 :: lcsStepRow a s2 row 0) (List.replicate (s2.length + 1) 0)
  finalRow.getLastD 0

/-- `rapidfuzz.fuzz.ratio` as an exact fraction (numerator, positive
denominator): the normalized InDel similarity is
`100 * (1 - dist / (|s1| + |s2|)) = 200 * lcs / (|s1| + |s2|)`.
Two empty strings score 100. -/
def fuzzScoreP (s1 s2 : Str) : Nat × Nat :=
  if s1.length + s2.length = 0 then (100, 1)
  else (200 * lcsLen s1 s2, s1.length + s2.length)

/-- `rapidfuzz.fuzz.ratio` as an exact rational in `[0, 100]`. -/
def fuzzRatio (s1 s2 : Str) : ℚ :=
  ((fuzzScoreP s1 s2).1 : ℚ) / ((fuzzScoreP s1 s2).2 : ℚ)

/-- Strict comparison of two score fractions, by cross-multiplication. -/
def scoreLt (a b : Nat × Nat) : Bool := a.1 * b.2 < b.1 * a.2

/-- `cutoff ≤ score`, by cross-multiplication. -/
def scoreGeCutoff (cutoff : Nat) (a : Nat × Nat) : Bool := cutoff * a.2 ≤ a.1

/-- The scan underlying `rapidfuzz.process.extractOne`: keeps the first
choice attaining the maximal score among scores `≥ cutoff`; only strict
improvement replaces the incumbent. -/
def extractOneGo (query : Str) (cutoff : Nat) :
    List Str → Nat → Option (Str × (Nat × Nat) × Nat) → Option (Str × (Nat × Nat) × Nat)
  | [], _, best => best
  | c :: cs, i, best =>
    let sc := fuzzScoreP query c
    let best' :=
      if scoreGeCutoff cutoff sc then
        match best with
        | none => some (c, sc, i)
        | some (_, bsc, _) => if scoreLt bsc sc then some (c, sc, i) else best
      else best
    extractOneGo query cutoff cs (i + 1) best'

/-- `rapidfuzz.process.extractOne(query, choices, scorer=fuzz.ratio,
score_cutoff=cutoff)`: the best-scoring choice with its score and index, or
`none` when no choice reaches the cutoff; ties keep the first choice. -/
def extractOne (query : Str) (choices : List Str) (cutoff : Nat) :
    Option (Str × (Nat × Nat) × Nat) :=
  extractOneGo query cutoff choices 0 none

/-- A row of the authors table (the `Author` schema columns handled by
`process_authors`): `uid`, nullable `orcid_id`, nullable `name`, nullable
`google_scholar_id`. -/
structure AuthorRow where
  uid : Str
  orcid_id : Option Str
  name : Option Str
  google_scholar_id : Option Str
deriving DecidableEq, Repr

/-- A new author extracted from the SERP data: the
`(author_id, name)` tuple collected by `process_authors`. -/
structure NewAuthor where
  google_scholar_id : Str
  name : Str
deriving DecidableEq, Repr

/-- First-occurrence deduplication by key:
`DataFrame.drop_duplicates(subset=key, keep="first")`. -/
def dedupByKey {α κ : Type} [DecidableEq κ] (key : α → κ) : List α → List α
  | [] => []
  | a :: as => a :: (dedupByKey key as).filter (fun b => key b ≠ key a)

/-- The blocking step of `process_authors`: existing rows sharing the new
initials or last name of the new author (computed on normalized names). -/
def blockFor (exs : List AuthorRow) (na : NewAuthor) : List AuthorRow :=
  let nn := normalizeAuthorName na.name
  exs.filter (fun e =>
    let en := normalizeAuthorNameOpt e.name
    getInitials en = getInitials nn || getLastName en = getLastName nn)

/-- The matching step of `process_authors` for one new author: `extractOne`
with `fuzz.ratio` and `score_cutoff=90` over the candidate block, returning
the chosen existing row. -/
def matchAuthor (exs : List AuthorRow) (na : NewAuthor) : Option AuthorRow :=
  let block := blockFor exs na
  match extractOne (normalizeAuthorName na.name)
      (block.map (fun e => normalizeAuthorNameOpt e.name)) 90 with
  | none => none
  | some (_, _, i) => block.get? i

/-- The row `process_authors` appends for one new author: the merged row on a
match (uid, orcid and name from the existing row, `google_scholar_id` from
the new row when non-empty by Python truthiness), else the unmatched row
keyed by the new google-scholar id. -/
def authorRowFor (exs : List AuthorRow) (na : NewAuthor) : AuthorRow :=
  match matchAuthor exs na with
  | some e =>
    { uid := e.uid
      orcid_id := e.orcid_id
      name := e.name
      google_scholar_id :=
        if na.google_scholar_id ≠ [] then some na.google_scholar_id
        else e.google_scholar_id }
  | none =>
    { uid := na.google_scholar_id
      orcid_id := none
      name := some na.name
      google_scholar_id := some na.google_scholar_id }

/-- The rows produced by the matching loop of `process_authors`, in
new-author order.  The source consults the full `existing_db` for every new
author (the `matched_existing_authors` set is never checked during
matching). -/
def authorMergedRows (nas : List NewAuthor) (exs : List AuthorRow) : List AuthorRow :=
  nas.map (authorRowFor exs)

/-- The uids recorded in `matched_existing_authors` during the run. -/
def matchedExistingUids (nas : List NewAuthor) (exs : List AuthorRow) : List Str :=
  (nas.filterMap (matchAuthor exs)).map (fun e => e.uid)

/-- The pass-through rows of `process_authors`: existing rows whose uid was
never recorded as matched. -/
def authorPassThrough (nas : List NewAuthor) (exs : List AuthorRow) : List AuthorRow :=
  exs.filter (fun e => e.uid ∉ matchedExistingUids nas exs)

/-- `process_authors` (merged output): loop rows, then unmatched existing
rows, deduplicated by uid keeping the first occurrence.  The new-author list
stands for the `(author_id, name)` set extracted from the SERP items, in one
realizable iteration order. -/
def processAuthors (nas : List NewAuthor) (exs : List AuthorRow) : List AuthorRow :=
  dedupByKey AuthorRow.uid (authorMergedRows nas exs ++ authorPassThrough nas exs)

/-- One entry of the `citations` list of a SERP item in the SERP JSONL data. -/
structure CitationIn where
  resultId : Str
  title : Str
  link : Option Str
  citedBy : Option Int
  authors : List (Str × Str)
deriving DecidableEq, Repr

/-- One item of the SERP JSONL data. -/
structure SerpItem where
  articleId : Str
  title : Str
  url : Option Str
  totalCitations : Option Int
  citations : List CitationIn
deriving DecidableEq, Repr

/-- The SERP-side article row built by `process_articles` (the pydantic
`Article` fields that are not constant `None` on this side). -/
structure SerpArticle where
  uid : Str
  title : Str
  is_bbp : Bool
  google_scholar_id : Str
  url : Option Str
  citations : Option Int
deriving DecidableEq, Repr

/-- The main-article row `process_articles` builds from one SERP item. -/
def serpMainArticle (it : SerpItem) : SerpArticle :=
  { uid := it.articleId
    title := it.title
    is_bbp := true
    google_scholar_id := it.articleId
    url := it.url
    citations := it.totalCitations }

/-- The row `process_articles` builds from one citation entry
(`citation.get("cited_by", 0)` defaults a missing count to `0`). -/
def serpCitationArticle (c : CitationIn) : SerpArticle :=
  { uid := c.resultId
    title := c.title
    is_bbp := false
    google_scholar_id := c.resultId
    url := c.link
    citations := some (c.citedBy.getD 0) }

/-- The citation rows of one item, skipping `result_id`s already in
`processed_google_scholar_ids`; returns the new rows and the grown id set. -/
def serpItemCitationRows (seen : List Str) : List CitationIn → List SerpArticle × List Str
  | [] => ([], seen)
  | c :: cs =>
    if c.resultId ∈ seen then serpItemCitationRows seen cs
    else
      let (rows, seen') := serpItemCitationRows (c.resultId :: seen) cs
      (serpCitationArticle c :: rows, seen')

/-- The article-row accumulation loop of `process_articles` over all items. -/
def serpArticleRowsGo (seen : List Str) : List SerpItem → List SerpArticle
  | [] => []
  | it :: its =>
    let (crows, seen') := serpItemCitationRows (it.articleId :: seen) it.citations
    serpMainArticle it :: crows ++ serpArticleRowsGo seen' its

/-- `articles_df` of `process_articles`: the accumulated rows, deduplicated
by normalized title keeping the first occurrence. -/
def serpArticlesDf (data : List SerpItem) : List SerpArticle :=
  dedupByKey (fun a => serpNormalizeTitle a.title) (serpArticleRowsGo [] data)

/-- A row of the existing articles table read by `process_articles`.  The
schema-required columns (`uid`, `title`, `source`, `is_bbp`, `is_published`)
are non-null; the optional columns are nullable.  The table is modelled
without a `google_scholar_id` column (with that column present the source
raises a `KeyError` when selecting `columns_to_keep`, since the column is
suffixed away by the merge and never rebuilt). -/
structure ExistArticle where
  uid : Str
  title : Str
  source : Str
  is_bbp : Bool
  is_published : Bool
  publication_date : Option Str
  abstract : Option Str
  doi : Option Str
  pmid : Option Str
  europmc_id : Option Str
  url : Option Str
  isbns : Option Str
  citations : Option Int
deriving DecidableEq, Repr

/-- A row of the merged articles table produced by `process_articles`. -/
structure MergedArticle where
  uid : Str
  title : Option Str
  source : Option Str
  is_bbp : Option Bool
  is_published : Option Bool
  publication_date : Option Str
  abstract : Option Str
  doi : Option Str
  pmid : Option Str
  europmc_id : Option Str
  google_scholar_id : Option Str
  url : Option Str
  isbns : Option Str
  citations : Option Int
deriving DecidableEq, Repr

/-- The SERP-side title post-processing of `process_articles`:
`strip`, `lower`, remove double and single quotes, `strip`. -/
def serpProcessedTitle (t : Str) : Str :=
  stripBoth isSpaceCp
    (((stripBoth isSpaceCp t).map pyLower).filter (fun c => c ≠ 34 && c ≠ 39))

/-- The general `existing-then-new` column rule of `process_articles`
(`columns_from_existing`). -/
def pickExisting {α : Type} (ef sf : Option α) : Option α :=
  match ef with
  | some v => some v
  | none => sf

/-- The per-row merge of `process_articles`: one row of the outer-merged
frame, with all column assignments of the loop (`source` combination, title
preference, max of citation counts, existing-first optional columns, and
`uid = uid_existing.fillna(uid_serp)`).  At least one side is present. -/
def mergeArticleRow : Option SerpArticle × Option ExistArticle → MergedArticle
  | (s, e) =>
    { uid := match e with | some e => e.uid | none => (s.map SerpArticle.uid).getD []
      title := match e with
        | some e => some (stripBoth isSpaceCp e.title)
        | none => match s with
          | some s => some (serpProcessedTitle s.title)
          | none => none
      source := match s, e with
        | some _, some e => some (str "serp_" ++ e.source)
        | some _, none => some (str "serp")
        | none, some e => some e.source
        | none, none => none
      is_bbp := pickExisting (e.map ExistArticle.is_bbp) (s.map SerpArticle.is_bbp)
      is_published := pickExisting (e.map ExistArticle.is_published) (s.map (fun _ => true))
      publication_date := pickExisting (e.bind ExistArticle.publication_date) none
      abstract := pickExisting (e.bind ExistArticle.abstract) none
      doi := pickExisting (e.bind ExistArticle.doi) none
      pmid := pickExisting (e.bind ExistArticle.pmid) none
      europmc_id := pickExisting (e.bind ExistArticle.europmc_id) none
      google_scholar_id := s.map SerpArticle.google_scholar_id
      url := pickExisting (e.bind ExistArticle.url) (s.bind SerpArticle.url)
      isbns := pickExisting (e.bind ExistArticle.isbns) none
      citations := match (s.bind SerpArticle.citations), (e.bind ExistArticle.citations) with
        | some cs, some ce => some (max ce cs)
        | some cs, none => some cs
        | none, some ce => some ce
        | none, none => some 0 }

/-- The outer merge of `process_articles` on `normalized_title`
(`pd.merge(..., how="outer", sort=False)`): left rows in left order, joined
with every matching right row, then right-only rows in right order. -/
def outerMergeArticles (ls : List SerpArticle) (es : List ExistArticle) :
    List (Option SerpArticle × Option ExistArticle) :=
  (ls.flatMap (fun s =>
    match es.filter (fun e => serpNormalizeTitle e.title = serpNormalizeTitle s.title) with
    | [] => [(some s, none)]
    | ms => ms.map (fun e => (some s, some e)))) ++
  (es.filter (fun e =>
    !ls.any (fun s => serpNormalizeTitle e.title = serpNormalizeTitle s.title))).map
    (fun e => ((none : Option SerpArticle), some e))

/-- `process_articles` (merged output `final_df`): build the SERP article
frame, outer-merge with the existing table on normalized title, apply the
field-merge loop, and deduplicate by uid keeping the first occurrence. -/
def processArticles (data : List SerpItem) (es : List ExistArticle) : List MergedArticle :=
  dedupByKey MergedArticle.uid
    ((outerMergeArticles (serpArticlesDf data) es).map mergeArticleRow)

/-- A row of the `ArticleCitesArticle` table (its only two columns). -/
structure ACA where
  article_uid_source : Str
  article_uid_target : Str
deriving DecidableEq, Repr

/-- The citation edges `process_article_cites_article` builds from the SERP
data: each citation entry cites the main article of its item. -/
def acaFromData (data : List SerpItem) : List ACA :=
  data.flatMap (fun it => it.citations.map (fun c => ⟨c.resultId, it.articleId⟩))

/-- The outer merge of `process_article_cites_article` on both key columns:
left rows (repeated per matching right row) in left order, then right-only
rows in right order. -/
def outerMergeACA (ls es : List ACA) : List ACA :=
  (ls.flatMap (fun a =>
    match es.filter (fun e => e = a) with
    | [] => [a]
    | ms => ms.map (fun _ => a))) ++
  es.filter (fun e => !ls.any (fun a => a = e))

/-- `process_article_cites_article` (merged output `final_df`): outer merge
with the existing edge table, deduplicated on the key pair keeping the first
occurrence.  No endpoint-existence or self-citation filtering is applied. -/
def processACA (data : List SerpItem) (es : List ACA) : List ACA :=
  dedupByKey (fun a => (a.article_uid_source, a.article_uid_target))
    (outerMergeACA (acaFromData data) es)

/-- The self-citation filter at the end of `fetch_citation_ids` in
`citations/data_sources/europmc.py`:
`[c for c in citation_ids if c != europmc_id]`. -/
def filterSelfCitations (europmcId : Str) (ids : List Str) : List Str :=
  ids.filter (fun c => c ≠ europmcId)

/-- The citation edges built by `get_citations` in `europmc.py` from the
filtered citation ids: each citing id cites the queried article. -/
def europmcCitationEdges (europmcId : Str) (ids : List Str) : List ACA :=
  (filterSelfCitations europmcId ids).map (fun c => ⟨c, europmcId⟩)

/-- Boolean lexicographic order on code-point strings (the order `pandas`
sorts string columns by). -/
def strLeB : Str → Str → Bool
  | [], _ => true
  | _ :: _, [] => false
  | a :: as, b :: bs => if a < b then true else if a = b then strLeB as bs else false

/-- Lexicographic order on pairs of strings, as used by
`sort_values(by=[k1, k2])`. -/
def pairLeB (x y : Str × Str) : Bool :=
  if x.1 = y.1 then strLeB x.2 y.2 else strLeB x.1 y.1

/-- A row of the `AuthorWroteArticle` table. -/
structure AWA where
  author_uid : Str
  article_uid : Str
deriving DecidableEq, Repr

/-- `df.sort_values(by="uid")` over the assembled articles table of
`gather_articles.py` (only the sort key matters for the ordering claim; the
remaining `Article` columns ride along in the row). -/
def gatherSortArticles (rows : List MergedArticle) : List MergedArticle :=
  List.insertionSort (fun a b => strLeB a.uid b.uid = true) rows

/-- `df_cites.sort_values(by=["article_uid_source", "article_uid_target"])`
over the assembled citation edges of `gather_articles.py`. -/
def gatherSortCites (rows : List ACA) : List ACA :=
  List.insertionSort
    (fun a b => pairLeB (a.article_uid_source, a.article_uid_target)
      (b.article_uid_source, b.article_uid_target) = true) rows

/-- `sort_values(by=["author_uid", "article_uid"])` over the assembled
authorship edges of `gather_articles.py`. -/
def gatherSortAWA (rows : List AWA) : List AWA :=
  List.insertionSort
    (fun a b => pairLeB (a.author_uid, a.article_uid) (b.author_uid, b.article_uid) = true) rows

/-! ### SHA-256 (`hashlib.sha256`), over natural numbers reduced mod `2 ^ 32` -/

/-- `str.encode("utf-8")`: the UTF-8 bytes of one code point. -/
def utf8Char (n : Nat) : List Nat :=
  if n < 0x80 then [n]
  else if n < 0x800 then [0xC0 + n / 64, 0x80 + n % 64]
  else if n < 0x10000 then [0xE0 + n / 4096, 0x80 + n / 64 % 64, 0x80 + n % 64]
  else [0xF0 + n / 262144, 0x80 + n / 4096 % 64, 0x80 + n / 64 % 64, 0x80 + n % 64]

/-- `str.encode("utf-8")` over a whole string. -/
def utf8Encode (s : Str) : List Nat := s.flatMap utf8Char

/-- Addition modulo `2 ^ 32`. -/
def add32 (a b : Nat) : Nat := (a + b) % 4294967296

/-- Right rotation of a 32-bit word by `k` bits. -/
def rotr32 (k w : Nat) : Nat := w / 2 ^ k + w % 2 ^ k * 2 ^ (32 - k)

/-- The SHA-256 `Ch` function. -/
def shaCh (e f g : Nat) : Nat := Nat.xor (Nat.land e f) (Nat.land (Nat.xor e 4294967295) g)

/-- The SHA-256 `Maj` function. -/
def shaMaj (a b c : Nat) : Nat := Nat.xor (Nat.xor (Nat.land a b) (Nat.land a c)) (Nat.land b c)

/-- The SHA-256 big sigma-0 function. -/
def shaS0 (a : Nat) : Nat := Nat.xor (Nat.xor (rotr32 2 a) (rotr32 13 a)) (rotr32 22 a)

/-- The SHA-256 big sigma-1 function. -/
def shaS1 (e : Nat) : Nat := Nat.xor (Nat.xor (rotr32 6 e) (rotr32 11 e)) (rotr32 25 e)

/-- The SHA-256 small sigma-0 function. -/
def shas0 (w : Nat) : Nat := Nat.xor (Nat.xor (rotr32 7 w) (rotr32 18 w)) (w / 2 ^ 3)

/-- The SHA-256 small sigma-1 function. -/
def shas1 (w : Nat) : Nat := Nat.xor (Nat.xor (rotr32 17 w) (rotr32 19 w)) (w / 2 ^ 10)

/-- The 64 SHA-256 round constants. -/
def shaK : List Nat :=
  [1116352408, 1899447441, 3049323471, 3921009573, 961987163, 1508970993,
   2453635748, 2870763221, 3624381080, 310598401, 607225278, 1426881987,
   1925078388, 2162078206, 2614888103, 3248222580, 3835390401, 4022224774,
   264347078, 604807628, 770255983, 1249150122, 1555081692, 1996064986,
   2554220882, 2821834349, 2952996808, 3210313671, 3336571891, 3584528711,
   113926993, 338241895, 666307205, 773529912, 1294757372, 1396182291,
   1695183700, 1986661051, 2177026350, 2456956037, 2730485921, 2820302411,
   3259730800, 3345764771, 3516065817, 3600352804, 4094571909, 275423344,
   430227734, 506948616, 659060556, 883997877, 958139571, 1322822218,
   1537002063, 1747873779, 1955562222, 2024104815, 2227730452, 2361852424,
   2428436474, 2756734187, 3204031479, 3329325298]

/-- The SHA-256 chaining state. -/
structure ShaState where
  h0 : Nat
  h1 : Nat
  h2 : Nat
  h3 : Nat
  h4 : Nat
  h5 : Nat
  h6 : Nat
  h7 : Nat
deriving Repr

/-- The SHA-256 initial hash value. -/
def shaInit : ShaState :=
  ⟨1779033703, 3144134277, 1013904242, 2773480762,
   1359893119, 2600822924, 528734635, 1541459225⟩

/-- SHA-256 padding: append `0x80`, zero bytes to 56 mod 64, and the 8-byte
big-endian bit length. -/
def shaPad (msg : List Nat) : List Nat :=
  let len := msg.length
  let zeros := (120 - (len + 1) % 64) % 64
  let bits := len * 8 % 2 ^ 64
  msg ++ [0x80] ++ List.replicate zeros 0 ++
    [bits / 2 ^ 56 % 256, bits / 2 ^ 48 % 256, bits / 2 ^ 40 % 256, bits / 2 ^ 32 % 256,
     bits / 2 ^ 24 % 256, bits / 2 ^ 16 % 256, bits / 2 ^ 8 % 256, bits % 256]

/-- Splits a byte list into big-endian 32-bit words. -/
def bytesToWords : List Nat → List Nat
  | b0 :: b1 :: b2 :: b3 :: rest =>
    (b0 * 16777216 + b1 * 65536 + b2 * 256 + b3) :: bytesToWords rest
  | _ => []

/-- Extends the 16 block words with `count` further message-schedule words. -/
def shaExtend (ws : List Nat) (count : Nat) : List Nat :=
  match count with
  | 0 => ws
  | c + 1 =>
    let n := ws.length
    let w := (add32 (add32 (shas1 (ws.getD (n - 2) 0)) (ws.getD (n - 7) 0))
      (add32 (shas0 (ws.getD (n - 15) 0)) (ws.getD (n - 16) 0)))
    shaExtend (ws ++ [w]) c

/-- One SHA-256 round, consuming one schedule word and one constant. -/
def shaRound (st : ShaState) (kw : Nat × Nat) : ShaState :=
  let t1 := add32 st.h7 (add32 (shaS1 st.h4) (add32 (shaCh st.h4 st.h5 st.h6) (add32 kw.1 kw.2)))
  let t2 := add32 (shaS0 st.h0) (shaMaj st.h0 st.h1 st.h2)
  ⟨add32 t1 t2, st.h0, st.h1, st.h2, add32 st.h3 t1, st.h4, st.h5, st.h6⟩

/-- SHA-256 compression of one 64-byte block into the chaining state. -/
def shaCompress (st : ShaState) (block : List Nat) : ShaState :=
  let ws := shaExtend (bytesToWords block) 48
  let f := (shaK.zip ws).foldl (fun s kw => shaRound s kw) st
  ⟨add32 st.h0 f.h0, add32 st.h1 f.h1, add32 st.h2 f.h2, add32 st.h3 f.h3,
   add32 st.h4 f.h4, add32 st.h5 f.h5, add32 st.h6 f.h6, add32 st.h7 f.h7⟩

/-- Folds the compression function over the 64-byte blocks of the padded
message; `fuel` bounds the number of blocks. -/
def shaBlocksGo (fuel : Nat) (st : ShaState) (l : List Nat) : ShaState :=
  match fuel with
  | 0 => st
  | f + 1 =>
    match l with
    | [] => st
    | _ => shaBlocksGo f (shaCompress st (l.take 64)) (l.drop 64)

/-- The SHA-256 digest state of a byte message. -/
def sha256State (msg : List Nat) : ShaState :=
  let padded := shaPad msg
  shaBlocksGo padded.length shaInit padded

/-- Big-endian bytes of a 32-bit word. -/
def wordBytes (w : Nat) : List Nat :=
  [w / 16777216 % 256, w / 65536 % 256, w / 256 % 256, w % 256]

/-- The 32 digest bytes of a SHA-256 state. -/
def shaDigestBytes (st : ShaState) : List Nat :=
  wordBytes st.h0 ++ wordBytes st.h1 ++ wordBytes st.h2 ++ wordBytes st.h3 ++
  wordBytes st.h4 ++ wordBytes st.h5 ++ wordBytes st.h6 ++ wordBytes st.h7

/-- The code point of one lowercase hexadecimal digit. -/
def hexDigitCp (n : Nat) : Nat := if n < 10 then 48 + n else 87 + n

/-- The two hex-digit code points of one byte. -/
def byteHexCps (b : Nat) : Str := [hexDigitCp (b / 16 % 16), hexDigitCp (b % 16)]

/-- `hashlib.sha256(bytes).hexdigest()` as a code-point string. -/
def sha256Hexdigest (msg : List Nat) : Str :=
  (shaDigestBytes (sha256State msg)).flatMap byteHexCps

/-- `generate_unique_id` of `citations/utils.py`:
`hashlib.sha256(name.encode("utf-8")).hexdigest()[:8]`. -/
def generate_unique_id (name : Str) : Str :=
  (sha256Hexdigest (utf8Encode name)).take 8

/-- An affiliation-summary position of an ORCID record, as consumed by
`get_author_affiliations` in `citations/data_sources/orcid.py`: the
organization name, the disambiguated organization identifier and its source
registry (each `none` when the element or its text is missing). -/
structure OrcidPosition where
  orgName : Option Str
  disambiguatedOrgId : Option Str
  disambiguationSource : Option Str
  startDate : Option Str
  endDate : Option Str
deriving DecidableEq, Repr

/-- A row of the `Institution` schema. -/
structure Institution where
  uid : Str
  name : Str
  organization_id : Str
  organization_id_source : Str
deriving DecidableEq, Repr

/-- The institution built by `get_author_affiliations` from one position:
positions without an organization name are skipped; a missing disambiguated
identifier falls back to `generate_unique_id(name)`; a missing
disambiguation source falls back to `"sha256"`. -/
def institutionFromPosition (pos : OrcidPosition) : Option Institution :=
  match pos.orgName with
  | none => none
  | some nm =>
    let orgId := pos.disambiguatedOrgId.getD (generate_unique_id nm)
    let src := pos.disambiguationSource.getD (str "sha256")
    some ⟨orgId, nm, orgId, src⟩

/-- The institutions list of `get_author_affiliations` over all positions. -/
def institutionsFromPositions (ps : List OrcidPosition) : List Institution :=
  ps.filterMap institutionFromPosition

/-! ### Concrete inputs used to evaluate the embedded pipeline -/

/-- An existing author named "John Smyth". -/
def exJohnSmyth : AuthorRow := ⟨str "e1", some (str "orcid1"), some (str "John Smyth"), none⟩

/-- An existing author named "John Smith". -/
def exJohnSmith : AuthorRow := ⟨str "e1", some (str "orcid1"), some (str "John Smith"), none⟩

/-- Two new SERP authors, "John Smith" and "Jon Smith". -/
def newSmithPair : List NewAuthor := [⟨str "g1", str "John Smith"⟩, ⟨str "g2", str "Jon Smith"⟩]

/-- Two new SERP authors, "John Smith" and "John Smyth". -/
def newSmythPair : List NewAuthor := [⟨str "g1", str "John Smith"⟩, ⟨str "g2", str "John Smyth"⟩]

/-- A lone new SERP author "Jon Smith". -/
def newJonSmith : NewAuthor := ⟨str "g2", str "Jon Smith"⟩

/-- A lone new SERP author "John Smith". -/
def newJohnSmith : NewAuthor := ⟨str "g1", str "John Smith"⟩

/-- An existing article with uid `a1`, title `T`, source `europmc`, doi `d1`
and 5 citations. -/
def exArticleA1 : ExistArticle :=
  ⟨str "a1", str "T", str "europmc", true, true, none, none, some (str "d1"),
   none, none, none, none, some 5⟩

/-- A SERP item with article id `serp1`, title `T`, no doi, 12 citations. -/
def serpItemT : SerpItem := ⟨str "serp1", str "T", none, some 12, []⟩

/-- A SERP item whose article `a` lists itself among its citations. -/
def serpItemSelf : SerpItem := ⟨str "a", str "T", none, some 1, [⟨str "a", str "T", none, some 0, []⟩]⟩

/-- A SERP item `a` (title `TA`) cited by `b` (title `TB`). -/
def serpItemAB : SerpItem := ⟨str "a", str "TA", none, some 1, [⟨str "b", str "TB", none, some 0, []⟩]⟩

/-- An existing article `e1` whose title `TB` collides with the citing
article `b` of `serpItemAB`. -/
def exArticleTB : ExistArticle :=
  ⟨str "e1", str "TB", str "europmc", true, true, none, none, none,
   none, none, none, none, some 3⟩

/-- Two SERP items in reverse-alphabetical order, producing citation edges
`(z, b)` then `(y, a)`. -/
def serpItemsUnsorted : List SerpItem :=
  [⟨str "b", str "TB2", none, some 1, [⟨str "z", str "TZ", none, some 0, []⟩]⟩,
   ⟨str "a", str "TA2", none, some 1, [⟨str "y", str "TY", none, some 0, []⟩]⟩]

/-- An ORCID position with an organization name but no disambiguated
organization identifier and no disambiguation source. -/
def epflPosition : OrcidPosition := ⟨some (str "EPFL"), none, none, none, none⟩

/-- Lowercase hexadecimal code points (`0`–`9`, `a`–`f`), the alphabet of
`hexdigest()`. -/
def isHexCp (n : Nat) : Bool := isDigitCp n || (97 ≤ n && n ≤ 102)

/-! ### Theorems -/

/-- C1 (counterexample): merging the SERP record `{uid: "serp1", doi: None,
citations: 12}` with the existing record `{uid: "a1", title: "T", source:
"europmc", doi: "d1", citations: 5}` does not take the field-filled `source`
value of the existing side: the merged `source` is `"serp_europmc"`, not the
existing `"europmc"`, so the claim that every field-filled value is taken
from the existing side fails. -/
theorem article_merge_source_concat_counterexample :
    (processArticles [serpItemT] [exArticleA1]).map MergedArticle.source =
      [some (str "serp_europmc")] ∧
    exArticleA1.source = str "europmc" ∧
    some exArticleA1.source ∉ (processArticles [serpItemT] [exArticleA1]).map MergedArticle.source := by
  decide

/-- C2 (code evaluated at the failing input): re-running `process_authors`
on its own output is not a no-op.  With one existing author "John Smyth" and
new authors "John Smith" (g1) and "Jon Smith" (g2), the first run matches
"John Smith" to "John Smyth" (score 90) and leaves "Jon Smith" unmatched;
the second run re-targets "John Smith" to the record created for
"Jon Smith" (score 1800/19 > 90), so the outputs differ. -/
theorem process_authors_rerun_not_noop :
    processAuthors newSmithPair (processAuthors newSmithPair [exJohnSmyth]) ≠
      processAuthors newSmithPair [exJohnSmyth] ∧
    (processAuthors newSmithPair [exJohnSmyth]).map AuthorRow.uid = [str "e1", str "g2"] ∧
    (processAuthors newSmithPair (processAuthors newSmithPair [exJohnSmyth])).map AuthorRow.uid =
      [str "g2", str "e1"] ∧
    (∃ r ∈ processAuthors newSmithPair (processAuthors newSmithPair [exJohnSmyth]),
      r.uid = str "g2" ∧ r.google_scholar_id = some (str "g1")) ∧
    ∀ r ∈ processAuthors newSmithPair [exJohnSmyth],
      ¬(r.uid = str "g2" ∧ r.google_scholar_id = some (str "g1")) := by
  decide

/-- C4 (code evaluated at the failing input): with one existing author
"John Smith" and new authors "John Smith" (g1, score 100) and "John Smyth"
(g2, score 90), both new records are merged into the same existing record
`e1` — the `matched_existing_authors` set is never consulted during
matching — and the second merged row is then silently dropped by the uid
deduplication, so no record for `g2` survives in the output. -/
theorem existing_author_double_match :
    matchAuthor [exJohnSmith] newJohnSmith = some exJohnSmith ∧
    matchAuthor [exJohnSmith] ⟨str "g2", str "John Smyth"⟩ = some exJohnSmith ∧
    (authorMergedRows newSmythPair [exJohnSmith]).map AuthorRow.uid = [str "e1", str "e1"] ∧
    (processAuthors newSmythPair [exJohnSmith]).length = 1 ∧
    ∀ r ∈ processAuthors newSmythPair [exJohnSmith], r.uid ≠ str "g2" := by
  decide

/-- C6 (code evaluated at the failing input): `process_article_cites_article`
retains the edge `(b, a)` even though `b` does not resolve to any uid of the
merged articles table — the article titled `TB` is title-matched to the
existing article and keeps uid `e1`, so the edge endpoint `b` dangles and is
not dropped. -/
theorem dangling_edge_retained :
    (⟨str "b", str "a"⟩ : ACA) ∈ processACA [serpItemAB] [] ∧
    (processArticles [serpItemAB] [exArticleTB]).map MergedArticle.uid = [str "a", str "e1"] ∧
    str "b" ∉ (processArticles [serpItemAB] [exArticleTB]).map MergedArticle.uid := by
  decide

/-- C7 (counterexample): the citation table assembled by
`process_article_cites_article` in `combine_serp.py` is emitted in merge
order, not sorted by `(source, target)`: on two items arriving in
reverse-alphabetical order the output is `[(z, b), (y, a)]`, which is not
sorted. -/
theorem combine_serp_output_unsorted_counterexample :
    processACA serpItemsUnsorted [] = [⟨str "z", str "b"⟩, ⟨str "y", str "a"⟩] ∧
    ¬ List.Sorted
      (fun x y : ACA => pairLeB (x.article_uid_source, x.article_uid_target)
        (y.article_uid_source, y.article_uid_target) = true)
      (processACA serpItemsUnsorted []) := by
  refine ⟨by decide, ?_⟩
  rw [show processACA serpItemsUnsorted [] =
    [⟨str "z", str "b"⟩, ⟨str "y", str "a"⟩] from by decide]
  rw [List.sorted_cons]
  intro h
  have := h.1 ⟨str "y", str "a"⟩ (by simp)
  revert this
  decide

/-- C5 (code evaluated at the failing input, plus the EuroPMC half): the
EuroPMC side filters out self-citations (`citation_id != europmc_id` in
`fetch_citation_ids`), but `process_article_cites_article` applies no such
filter: a SERP item listing itself among its citations yields the retained
self-edge `(a, a)`. -/
theorem self_citation_retained :
    (⟨str "a", str "a"⟩ : ACA) ∈ processACA [serpItemSelf] [] ∧
    ∀ (eid : Str) (ids : List Str),
      ((europmcCitationEdges eid ids).all
        (fun e => e.article_uid_source != e.article_uid_target)) = true := by
  refine ⟨by decide, ?_⟩
  intro eid ids
  simp only [europmcCitationEdges, filterSelfCitations, List.all_eq_true, List.mem_map,
    List.mem_filter]
  rintro e ⟨c, ⟨_, hne⟩, rfl⟩
  simpa [bne] using of_decide_eq_true hne

/-- C3 (counterexample): the new author name "Jon Smith" scores
`1800/19 ≈ 94.7` against the existing "John Smith" — at least 90, not below
it — so it is merged into the existing record rather than kept as a second
coexisting author record. -/
theorem jon_smith_merges_counterexample :
    fuzzRatio (normalizeAuthorName (str "Jon Smith")) (normalizeAuthorName (str "John Smith")) =
      1800 / 19 ∧
    (90 : ℚ) ≤ 1800 / 19 ∧
    processAuthors [newJonSmith] [exJohnSmith] =
      [⟨str "e1", some (str "orcid1"), some (str "John Smith"), some (str "g2")⟩] := by
  refine ⟨?_, by norm_num, by decide⟩
  rw [fuzzRatio, show fuzzScoreP (normalizeAuthorName (str "Jon Smith"))
    (normalizeAuthorName (str "John Smith")) = (1800, 19) from by decide]
  norm_num

/-- C10: whenever the author matcher selects an existing row for a new
author, the merged row keeps `uid`, `orcid_id` and `name` unchanged from the
existing row, and takes `google_scholar_id` from the new record exactly when
the new record has a non-empty one (Python truthiness), else keeps the
existing value. -/
theorem matched_merge_frame (nas : List NewAuthor) (exs : List AuthorRow) (i : Nat)
    (na : NewAuthor) (e : AuthorRow) (hna : nas[i]? = some na)
    (hm : matchAuthor exs na = some e) :
    (authorMergedRows nas exs)[i]? = some
      { uid := e.uid
        orcid_id := e.orcid_id
        name := e.name
        google_scholar_id :=
          if na.google_scholar_id ≠ [] then some na.google_scholar_id
          else e.google_scholar_id } := by
  rw [authorMergedRows, List.getElem?_map, hna]
  simp [authorRowFor, hm]

/-- C10 (witness): the frame condition instantiated at the new author
"Jon Smith" matched into the existing record of "John Smith". -/
theorem matched_merge_frame_witness :
    (authorMergedRows [newJonSmith] [exJohnSmith])[0]? = some
      { uid := exJohnSmith.uid
        orcid_id := exJohnSmith.orcid_id
        name := exJohnSmith.name
        google_scholar_id :=
          if newJonSmith.google_scholar_id ≠ [] then some newJonSmith.google_scholar_id
          else exJohnSmith.google_scholar_id } :=
  matched_merge_frame [newJonSmith] [exJohnSmith] 0 newJonSmith exJohnSmith (by decide)
    (by decide)

/-- The digest of a SHA-256 state is always 32 bytes. -/
theorem length_shaDigestBytes (st : ShaState) : (shaDigestBytes st).length = 32 := by
  simp [shaDigestBytes, wordBytes]

/-- Hex rendering doubles the byte count. -/
theorem length_flatMap_byteHexCps (l : List Nat) : (l.flatMap byteHexCps).length = 2 * l.length := by
  induction l with
  | nil => simp
  | cons b bs ih => simp [byteHexCps, ih]; omega

/-- A hexadecimal digit code point is in the lowercase hex alphabet. -/
theorem isHexCp_hexDigitCp (n : Nat) (h : n < 16) : isHexCp (hexDigitCp n) = true := by
  simp only [isHexCp, hexDigitCp, isDigitCp, Bool.or_eq_true, Bool.and_eq_true,
    decide_eq_true_eq]
  split <;> omega

/-- Every code point of a hex-rendered byte string is a hex digit. -/
theorem isHexCp_of_mem_flatMap (c : Nat) (l : List Nat) (h : c ∈ l.flatMap byteHexCps) :
    isHexCp c = true := by
  rw [List.mem_flatMap] at h
  obtain ⟨b, _, hc⟩ := h
  simp only [byteHexCps, List.mem_cons, List.not_mem_nil, or_false] at hc
  rcases hc with rfl | rfl
  · exact isHexCp_hexDigitCp _ (Nat.mod_lt _ (by omega))
  · exact isHexCp_hexDigitCp _ (Nat.mod_lt _ (by omega))

/-- The hexdigest of any message has exactly 64 code points. -/
theorem length_sha256Hexdigest (msg : List Nat) : (sha256Hexdigest msg).length = 64 := by
  rw [sha256Hexdigest, length_flatMap_byteHexCps, length_shaDigestBytes]

/-- C8: the fallback institution id is a pure function of the name whose
value is exactly the first 8 code points of the SHA-256 hexdigest of the
UTF-8 encoded name; it always has length 8 and consists of hexadecimal
digits; the embedded SHA-256 matches the standard test vector for "abc";
and an ORCID position lacking a disambiguated organization identifier (and
its source registry) yields an institution whose uid and organization id are
both the hash and whose organization id source is "sha256". -/
theorem generate_unique_id_spec :
    (∀ name : Str,
      generate_unique_id name = (sha256Hexdigest (utf8Encode name)).take 8 ∧
      (generate_unique_id name).length = 8 ∧
      ∀ c ∈ generate_unique_id name, isHexCp c = true) ∧
    generate_unique_id (str "abc") = str "ba7816bf" ∧
    ∀ (pos : OrcidPosition) (nm : Str), pos.orgName = some nm →
      pos.disambiguatedOrgId = none → pos.disambiguationSource = none →
      institutionFromPosition pos = some
        ⟨generate_unique_id nm, nm, generate_unique_id nm, str "sha256"⟩ := by
  refine ⟨fun name => ⟨rfl, ?_, fun c hc => ?_⟩, by decide, fun pos nm h1 h2 h3 => ?_⟩
  · rw [generate_unique_id, List.length_take, length_sha256Hexdigest]
    omega
  · exact isHexCp_of_mem_flatMap c _ ((List.take_sublist _ _).subset hc)
  · simp [institutionFromPosition, h1, h2, h3]

/-- C8 (witness): the specification applied to the institution name "EPFL"
and to an ORCID position carrying only that name. -/
theorem generate_unique_id_spec_witness :
    (generate_unique_id (str "EPFL")).length = 8 ∧
    isHexCp 51 = true ∧
    institutionFromPosition epflPosition = some
      ⟨generate_unique_id (str "EPFL"), str "EPFL", generate_unique_id (str "EPFL"),
        str "sha256"⟩ :=
  ⟨(generate_unique_id_spec.1 (str "EPFL")).2.1,
   (generate_unique_id_spec.1 (str "EPFL")).2.2 51 (by decide),
   generate_unique_id_spec.2.2 epflPosition (str "EPFL") rfl rfl rfl⟩

/-! ### Normalizer idempotence -/

/-- ASCII lowercasing is idempotent. -/
theorem pyLower_pyLower (n : Nat) : pyLower (pyLower n) = pyLower n := by
  unfold pyLower
  split_ifs <;> omega

/-- Trailing-strip produces a sublist. -/
theorem dropTrail_sublist (p : Nat → Bool) (l : Str) : (dropTrail p l).Sublist l := by
  have h := (List.dropWhile_sublist (l := l.reverse) p).reverse
  simpa [dropTrail] using h

/-- Stripping produces a sublist. -/
theorem stripBoth_sublist (p : Nat → Bool) (l : Str) : (stripBoth p l).Sublist l :=
  (dropTrail_sublist p (l.dropWhile p)).trans (List.dropWhile_sublist p)

/-- A list none of whose elements satisfies `p` is untouched by `dropWhile`. -/
theorem dropWhile_eq_self_of (p : Nat → Bool) (l : Str) (h : ∀ c ∈ l, p c = false) :
    l.dropWhile p = l := by
  cases l with
  | nil => rfl
  | cons a t => rw [List.dropWhile_cons, if_neg (by simp [h a (by simp)])]

/-- A list none of whose elements satisfies `p` is untouched by `dropTrail`. -/
theorem dropTrail_eq_self_of (p : Nat → Bool) (l : Str) (h : ∀ c ∈ l, p c = false) :
    dropTrail p l = l := by
  rw [dropTrail, dropWhile_eq_self_of p l.reverse (fun c hc => h c (List.mem_reverse.mp hc)),
    List.reverse_reverse]

/-- A list none of whose elements satisfies `p` is untouched by `stripBoth`. -/
theorem stripBoth_eq_self_of (p : Nat → Bool) (l : Str) (h : ∀ c ∈ l, p c = false) :
    stripBoth p l = l := by
  rw [stripBoth, dropWhile_eq_self_of p l h, dropTrail_eq_self_of p l h]

/-- Leading-strip is idempotent. -/
theorem dropWhile_dropWhile (p : Nat → Bool) (l : Str) :
    (l.dropWhile p).dropWhile p = l.dropWhile p := by
  induction l with
  | nil => rfl
  | cons a t ih =>
    rw [List.dropWhile_cons]
    split
    · exact ih
    · rw [List.dropWhile_cons, if_neg (by simp_all)]

/-- The cons unfolding of `dropTrail`. -/
theorem dropTrail_cons (p : Nat → Bool) (a : Nat) (t : Str) :
    dropTrail p (a :: t) =
      if dropTrail p t = [] then (if p a then [] else [a]) else a :: dropTrail p t := by
  rcases h : List.dropWhile p t.reverse with _ | ⟨b, bs⟩
  · have ht : dropTrail p t = [] := by rw [dropTrail, h, List.reverse_nil]
    rw [dropTrail, List.reverse_cons, List.dropWhile_append, h, ht]
    cases hpa : p a <;> simp [List.dropWhile_cons, hpa]
  · have ht : dropTrail p t = (b :: bs).reverse := by rw [dropTrail, h]
    rw [dropTrail, List.reverse_cons, List.dropWhile_append, h, ht]
    simp

/-- `dropTrail` preserves being a fixed point of leading-strip. -/
theorem dropWhile_dropTrail (p : Nat → Bool) (l : Str) (h : l.dropWhile p = l) :
    (dropTrail p l).dropWhile p = dropTrail p l := by
  cases l with
  | nil => rfl
  | cons a t =>
    have hpa : p a = false := by
      by_contra hne
      have hpa : p a = true := by revert hne; cases p a <;> simp
      rw [List.dropWhile_cons, if_pos hpa] at h
      have hlen := (List.dropWhile_sublist (l := t) p).length_le
      rw [h] at hlen
      simp at hlen
    rw [dropTrail_cons]
    split
    · cases hq : p a <;> simp [List.dropWhile_cons, hpa]
    · simp [List.dropWhile_cons, hpa]

/-- Trailing-strip is idempotent. -/
theorem dropTrail_dropTrail (p : Nat → Bool) (l : Str) :
    dropTrail p (dropTrail p l) = dropTrail p l := by
  simp only [dropTrail]
  rw [List.reverse_reverse, dropWhile_dropWhile]

/-- `str.strip` is idempotent. -/
theorem stripBoth_stripBoth (p : Nat → Bool) (l : Str) :
    stripBoth p (stripBoth p l) = stripBoth p l := by
  rw [stripBoth, stripBoth,
    dropWhile_dropTrail p (l.dropWhile p) (dropWhile_dropWhile p l), dropTrail_dropTrail]

/-- A list of lowercasing fixed points is untouched by `map pyLower`. -/
theorem map_pyLower_eq_self (l : Str) (h : ∀ c ∈ l, pyLower c = c) :
    l.map pyLower = l :=
  (List.map_congr_left h).trans (List.map_id l)

/-- Every code point of a normalized author name is a word-or-space
character that is already lowercased. -/
theorem mem_normalizeAuthorName (c : Nat) (x : Str) (h : c ∈ normalizeAuthorName x) :
    (isWordCp c || isSpaceCp c) = true ∧ pyLower c = c := by
  have h1 : c ∈ (x.map pyLower).filter (fun c => isWordCp c || isSpaceCp c) :=
    (stripBoth_sublist _ _).subset h
  rw [List.mem_filter] at h1
  refine ⟨h1.2, ?_⟩
  obtain ⟨b, _, rfl⟩ := List.mem_map.mp h1.1
  exact pyLower_pyLower b

/-- Every code point of a `utils.normalize_title` result is a lowercase
ASCII letter. -/
theorem mem_utilsNormalizeTitle (c : Nat) (x : Str) (h : c ∈ utilsNormalizeTitle x) :
    97 ≤ c ∧ c ≤ 122 := by
  rw [utilsNormalizeTitle] at h
  have h2 : c ∈ (((x.filter (fun c => isAlphaCp c || isSpaceCp c)).filter
      (fun c => !isSpaceCp c)).map pyLower) :=
    (stripBoth_sublist _ _).subset
      ((List.take_sublist _ _).subset ((stripBoth_sublist _ _).subset h))
  obtain ⟨b, hb, rfl⟩ := List.mem_map.mp h2
  rw [List.mem_filter] at hb
  obtain ⟨hb1, hbs⟩ := hb
  rw [List.mem_filter] at hb1
  have halpha := hb1.2
  simp only [isAlphaCp, isSpaceCp, Bool.or_eq_true, Bool.and_eq_true, Bool.not_eq_true',
    Bool.or_eq_false_iff, decide_eq_true_eq, decide_eq_false_iff_not] at halpha hbs
  unfold pyLower
  split <;> omega

/-- The length of a `utils.normalize_title` result is at most 30. -/
theorem length_utilsNormalizeTitle_le (x : Str) : (utilsNormalizeTitle x).length ≤ 30 := by
  rw [utilsNormalizeTitle]
  have h := (stripBoth_sublist isPunctWsCp ((stripBoth isPunctWsCp
    (((x.filter (fun c => isAlphaCp c || isSpaceCp c)).filter
      (fun c => !isSpaceCp c)).map pyLower)).take 30)).length_le
  rw [List.length_take] at h
  omega

/-- C9: both normalizers are idempotent — applying
`utils.normalize_title` or `combine_serp.normalize_author_name` twice gives
the same key as applying it once. -/
theorem normalizers_idempotent (x : Str) :
    utilsNormalizeTitle (utilsNormalizeTitle x) = utilsNormalizeTitle x ∧
    normalizeAuthorName (normalizeAuthorName x) = normalizeAuthorName x := by
  constructor
  · set y := utilsNormalizeTitle x with hy
    have hmem : ∀ c ∈ y, 97 ≤ c ∧ c ≤ 122 := fun c hc => mem_utilsNormalizeTitle c x hc
    rw [utilsNormalizeTitle]
    rw [(List.filter_eq_self (p := fun c => isAlphaCp c || isSpaceCp c) (l := y)).mpr
      (fun c hc => by
        have := hmem c hc
        simp only [isAlphaCp, isSpaceCp, Bool.or_eq_true, Bool.and_eq_true, decide_eq_true_eq]
        omega)]
    rw [(List.filter_eq_self (p := fun c => !isSpaceCp c) (l := y)).mpr
      (fun c hc => by
        have := hmem c hc
        simp only [isSpaceCp, Bool.not_eq_true', Bool.or_eq_false_iff, decide_eq_false_iff_not]
        omega)]
    rw [map_pyLower_eq_self y (fun c hc => by
      have := hmem c hc
      unfold pyLower
      rw [if_neg (by omega)])]
    have hnp : ∀ c ∈ y, isPunctWsCp c = false := fun c hc => by
      have := hmem c hc
      simp only [isPunctWsCp, isPunctCp, isSpaceCp, Bool.or_eq_false_iff, Bool.and_eq_false_iff,
        decide_eq_false_iff_not]
      omega
    rw [stripBoth_eq_self_of _ y hnp]
    rw [List.take_of_length_le (by rw [hy]; exact length_utilsNormalizeTitle_le x)]
    rw [stripBoth_eq_self_of _ y hnp]
  · set y := normalizeAuthorName x with hy
    have hmem : ∀ c ∈ y, (isWordCp c || isSpaceCp c) = true ∧ pyLower c = c :=
      fun c hc => mem_normalizeAuthorName c x hc
    rw [normalizeAuthorName]
    rw [map_pyLower_eq_self y (fun c hc => (hmem c hc).2)]
    rw [List.filter_eq_self.mpr (fun c hc => (hmem c hc).1)]
    rw [hy, normalizeAuthorName, stripBoth_stripBoth]

/-! ### Sortedness of the gather_articles output tables -/

/-- Lexicographic string order is total. -/
theorem strLeB_total (a b : Str) : strLeB a b = true ∨ strLeB b a = true := by
  induction a generalizing b with
  | nil => left; rfl
  | cons x xs ih =>
    cases b with
    | nil => right; rfl
    | cons y ys =>
      rcases Nat.lt_trichotomy x y with h | h | h
      · left; simp [strLeB, h]
      · subst h
        rcases ih ys with h2 | h2
        · left; simp only [strLeB, Nat.lt_irrefl, if_false, if_pos rfl]; exact h2
        · right; simp only [strLeB, Nat.lt_irrefl, if_false, if_pos rfl]; exact h2
      · right; simp [strLeB, h]

/-- Lexicographic string order is transitive. -/
theorem strLeB_trans (a b c : Str) (h1 : strLeB a b = true) (h2 : strLeB b c = true) :
    strLeB a c = true := by
  induction a generalizing b c with
  | nil => rfl
  | cons x xs ih =>
    cases b with
    | nil => simp [strLeB] at h1
    | cons y ys =>
      cases c with
      | nil => simp [strLeB] at h2
      | cons z zs =>
        simp only [strLeB] at h1 h2 ⊢
        by_cases hxy : x < y
        · by_cases hyz : y < z
          · rw [if_pos (Nat.lt_trans hxy hyz)]
          · rw [if_neg hyz] at h2
            by_cases hyz2 : y = z
            · subst hyz2; rw [if_pos hxy]
            · rw [if_neg hyz2] at h2; exact absurd h2 (by simp)
        · rw [if_neg hxy] at h1
          by_cases hxy2 : x = y
          · subst hxy2
            rw [if_pos rfl] at h1
            by_cases hxz : x < z
            · rw [if_pos hxz]
            · rw [if_neg hxz]
              rw [if_neg hxz] at h2
              by_cases hxz2 : x = z
              · rw [if_pos hxz2]; rw [if_pos hxz2] at h2; exact ih ys zs h1 h2
              · rw [if_neg hxz2] at h2; exact absurd h2 (by simp)
          · rw [if_neg hxy2] at h1; exact absurd h1 (by simp)

/-- Lexicographic string order is antisymmetric. -/
theorem strLeB_antisymm (a b : Str) (h1 : strLeB a b = true) (h2 : strLeB b a = true) :
    a = b := by
  induction a generalizing b with
  | nil =>
    cases b with
    | nil => rfl
    | cons y ys => simp [strLeB] at h2
  | cons x xs ih =>
    cases b with
    | nil => simp [strLeB] at h1
    | cons y ys =>
      simp only [strLeB] at h1 h2
      by_cases hxy : x < y
      · rw [if_neg (Nat.lt_asymm hxy), if_neg (by omega)] at h2
        exact absurd h2 (by simp)
      · rw [if_neg hxy] at h1
        by_cases hxy2 : x = y
        · subst hxy2
          rw [if_pos rfl] at h1
          rw [if_neg hxy, if_pos rfl] at h2
          rw [ih ys h1 h2]
        · rw [if_neg hxy2] at h1; exact absurd h1 (by simp)

/-- The two-key pandas sort order is total. -/
theorem pairLeB_total (x y : Str × Str) : pairLeB x y = true ∨ pairLeB y x = true := by
  unfold pairLeB
  by_cases h : x.1 = y.1
  · rw [if_pos h, if_pos h.symm]; exact strLeB_total _ _
  · rw [if_neg h, if_neg (Ne.symm h)]; exact strLeB_total _ _

/-- The two-key pandas sort order is transitive. -/
theorem pairLeB_trans (x y z : Str × Str) (h1 : pairLeB x y = true)
    (h2 : pairLeB y z = true) : pairLeB x z = true := by
  unfold pairLeB at h1 h2 ⊢
  by_cases hxy : x.1 = y.1 <;> by_cases hyz : y.1 = z.1
  · rw [if_pos hxy] at h1; rw [if_pos hyz] at h2
    rw [if_pos (hxy.trans hyz)]
    exact strLeB_trans _ _ _ h1 h2
  · rw [if_pos hxy] at h1
    rw [if_neg hyz] at h2
    rw [if_neg (by rw [hxy]; exact hyz), hxy]
    exact h2
  · rw [if_neg hxy] at h1
    rw [if_pos hyz] at h2
    rw [if_neg (fun hc => hxy (hc.trans hyz.symm)), ← hyz]
    exact h1
  · rw [if_neg hxy] at h1
    rw [if_neg hyz] at h2
    by_cases hxz : x.1 = z.1
    · exfalso
      rw [← hxz] at h2
      exact hxy (strLeB_antisymm _ _ h1 h2)
    · rw [if_neg hxz]
      exact strLeB_trans _ _ _ h1 h2

/-- C7 (amended): the tables assembled by `gather_articles.py` are sorted
before being written — the articles table by `uid`, the citation-edge table
by `(article_uid_source, article_uid_target)`, and the authorship-edge table
by `(author_uid, article_uid)` — and each sort is a permutation of its
input.  The tables written by `combine_serp.py` carry no such guarantee
(they are emitted in merge order). -/
theorem gather_tables_sorted_amended :
    (∀ rows : List MergedArticle,
      List.Sorted (fun a b : MergedArticle => strLeB a.uid b.uid = true)
        (gatherSortArticles rows) ∧ (gatherSortArticles rows).Perm rows) ∧
    (∀ rows : List ACA,
      List.Sorted (fun a b : ACA => pairLeB (a.article_uid_source, a.article_uid_target)
        (b.article_uid_source, b.article_uid_target) = true) (gatherSortCites rows) ∧
      (gatherSortCites rows).Perm rows) ∧
    (∀ rows : List AWA,
      List.Sorted (fun a b : AWA => pairLeB (a.author_uid, a.article_uid)
        (b.author_uid, b.article_uid) = true) (gatherSortAWA rows) ∧
      (gatherSortAWA rows).Perm rows) := by
  refine ⟨fun rows => ⟨?_, ?_⟩, fun rows => ⟨?_, ?_⟩, fun rows => ⟨?_, ?_⟩⟩
  · haveI : IsTotal MergedArticle (fun a b => strLeB a.uid b.uid = true) :=
      ⟨fun a b => strLeB_total _ _⟩
    haveI : IsTrans MergedArticle (fun a b => strLeB a.uid b.uid = true) :=
      ⟨fun a b c => strLeB_trans _ _ _⟩
    exact List.sorted_insertionSort _ _
  · exact List.perm_insertionSort _ _
  · haveI : IsTotal ACA (fun a b => pairLeB (a.article_uid_source, a.article_uid_target)
        (b.article_uid_source, b.article_uid_target) = true) :=
      ⟨fun a b => pairLeB_total _ _⟩
    haveI : IsTrans ACA (fun a b => pairLeB (a.article_uid_source, a.article_uid_target)
        (b.article_uid_source, b.article_uid_target) = true) :=
      ⟨fun a b c => pairLeB_trans _ _ _⟩
    exact List.sorted_insertionSort _ _
  · exact List.perm_insertionSort _ _
  · haveI : IsTotal AWA (fun a b => pairLeB (a.author_uid, a.article_uid)
        (b.author_uid, b.article_uid) = true) :=
      ⟨fun a b => pairLeB_total _ _⟩
    haveI : IsTrans AWA (fun a b => pairLeB (a.author_uid, a.article_uid)
        (b.author_uid, b.article_uid) = true) :=
      ⟨fun a b c => pairLeB_trans _ _ _⟩
    exact List.sorted_insertionSort _ _
  · exact List.perm_insertionSort _ _

/-! ### The acceptance threshold of the author matcher -/

/-- The score denominator is always positive. -/
theorem fuzzScoreP_den_pos (s1 s2 : Str) : 0 < (fuzzScoreP s1 s2).2 := by
  unfold fuzzScoreP
  split
  · simp
  · simp
    omega

/-- The rational score clears a natural cutoff iff the cross-multiplied
comparison does. -/
theorem le_fuzzRatio_iff (ct : Nat) (s1 s2 : Str) :
    (ct : ℚ) ≤ fuzzRatio s1 s2 ↔ scoreGeCutoff ct (fuzzScoreP s1 s2) = true := by
  have hd := fuzzScoreP_den_pos s1 s2
  simp only [fuzzRatio, scoreGeCutoff, decide_eq_true_eq]
  rw [le_div_iff₀ (by exact_mod_cast hd)]
  exact_mod_cast Iff.rfl

/-- A scan started from a non-`none` incumbent never returns `none`. -/
theorem extractOneGo_ne_none (q : Str) (ct : Nat) :
    ∀ (cs : List Str) (i : Nat) (best : Option (Str × (Nat × Nat) × Nat)),
      best ≠ none → extractOneGo q ct cs i best ≠ none := by
  intro cs
  induction cs with
  | nil => intro i best hb; simpa [extractOneGo] using hb
  | cons d ds ih =>
    intro i best hb
    simp only [extractOneGo]
    apply ih
    rcases best with _ | ⟨c0, sc0, j0⟩
    · exact absurd rfl hb
    · dsimp only
      split
      · split <;> simp
      · simp

/-- If the scan returns `none`, no choice cleared the cutoff. -/
theorem extractOneGo_none (q : Str) (ct : Nat) :
    ∀ (cs : List Str) (i : Nat) (best : Option (Str × (Nat × Nat) × Nat)),
      extractOneGo q ct cs i best = none →
      ∀ c ∈ cs, scoreGeCutoff ct (fuzzScoreP q c) = false := by
  intro cs
  induction cs with
  | nil => intro i best _ c hc; exact absurd hc (List.not_mem_nil c)
  | cons d ds ih =>
    intro i best h c hc
    simp only [extractOneGo] at h
    rcases List.mem_cons.mp hc with rfl | hc2
    · by_contra hcut
      have hcut2 : scoreGeCutoff ct (fuzzScoreP q c) = true := by
        revert hcut; cases scoreGeCutoff ct (fuzzScoreP q c) <;> simp

      rw [if_pos hcut2] at h
      rcases best with _ | ⟨c0, sc0, j0⟩
      · exact extractOneGo_ne_none q ct ds _ _ (by simp) h
      · dsimp only at h
        refine extractOneGo_ne_none q ct ds _ _ ?_ h
        split <;> simp
    · exact ih _ _ h c hc2

/-- Any result of the scan is a choice of the full list at its reported
index, carries its own score, and clears the cutoff. -/
theorem extractOneGo_some_inv (q : Str) (ct : Nat) (all : List Str) :
    ∀ (cs : List Str) (i : Nat) (best : Option (Str × (Nat × Nat) × Nat)),
      cs = all.drop i →
      (∀ c sc j, best = some (c, sc, j) →
        all[j]? = some c ∧ sc = fuzzScoreP q c ∧ scoreGeCutoff ct sc = true) →
      ∀ c sc j, extractOneGo q ct cs i best = some (c, sc, j) →
        all[j]? = some c ∧ sc = fuzzScoreP q c ∧ scoreGeCutoff ct sc = true := by
  intro cs
  induction cs with
  | nil =>
    intro i best _ hinv c sc j h
    exact hinv c sc j h
  | cons d ds ih =>
    intro i best hdrop hinv c sc j h
    have hdi : all[i]? = some d := by
      have := List.getElem?_drop all i 0
      rw [← hdrop] at this
      simpa using this.symm
    have hds : ds = all.drop (i + 1) := by
      rw [← List.tail_drop, ← hdrop]
      rfl
    simp only [extractOneGo] at h
    refine ih (i + 1) _ hds ?_ c sc j h
    intro c2 sc2 j2 hb
    by_cases hcut : scoreGeCutoff ct (fuzzScoreP q d) = true
    · rw [if_pos hcut] at hb
      rcases best with _ | ⟨c0, sc0, j0⟩
      · cases hb
        exact ⟨hdi, rfl, hcut⟩
      · dsimp only at hb
        split at hb
        · cases hb
          exact ⟨hdi, rfl, hcut⟩
        · cases hb
          exact hinv _ _ _ rfl
    · rw [if_neg hcut] at hb
      exact hinv c2 sc2 j2 hb

/-- Clearing the fixed threshold 90, stated on the rational score. -/
theorem le90_fuzzRatio_iff (s1 s2 : Str) :
    (90 : ℚ) ≤ fuzzRatio s1 s2 ↔ scoreGeCutoff 90 (fuzzScoreP s1 s2) = true := by
  exact_mod_cast le_fuzzRatio_iff 90 s1 s2

/-- C3 (amended): the author matcher merges a new record into an existing
candidate exactly on the cutoff rule — it reports no match only when every
blocked candidate scores strictly below 90, and any reported match is a
blocked candidate scoring at least 90.  "John Smith" against "John Smith"
scores 100 and merges; the original concrete expectation is amended because
"Jon Smith" against "John Smith" scores 1800/19 ≈ 94.7, which is at least
90, so it merges too. -/
theorem author_match_threshold_amended :
    (∀ (exs : List AuthorRow) (na : NewAuthor),
      matchAuthor exs na = none →
      ∀ e ∈ blockFor exs na,
        fuzzRatio (normalizeAuthorName na.name) (normalizeAuthorNameOpt e.name) < 90) ∧
    (∀ (exs : List AuthorRow) (na : NewAuthor) (e : AuthorRow),
      matchAuthor exs na = some e →
      e ∈ blockFor exs na ∧
      (90 : ℚ) ≤ fuzzRatio (normalizeAuthorName na.name) (normalizeAuthorNameOpt e.name)) ∧
    fuzzRatio (normalizeAuthorName (str "John Smith")) (normalizeAuthorName (str "John Smith")) =
      100 ∧
    processAuthors [newJohnSmith] [exJohnSmith] =
      [⟨str "e1", some (str "orcid1"), some (str "John Smith"), some (str "g1")⟩] := by
  refine ⟨?_, ?_, ?_, by decide⟩
  · intro exs na hm e he
    rw [matchAuthor] at hm
    rcases hext : extractOne (normalizeAuthorName na.name)
        ((blockFor exs na).map (fun e => normalizeAuthorNameOpt e.name)) 90 with _ | ⟨c, sc, j⟩
    · have hall := extractOneGo_none _ _ _ _ _ hext
        (normalizeAuthorNameOpt e.name) (List.mem_map_of_mem _ he)
      rw [← not_le, le90_fuzzRatio_iff, hall]
      simp
    · exfalso
      rw [hext] at hm
      dsimp only at hm
      have hinv := extractOneGo_some_inv (normalizeAuthorName na.name) 90
        ((blockFor exs na).map (fun e => normalizeAuthorNameOpt e.name)) _ 0 none
        (by rw [List.drop_zero]) (by intro _ _ _ h; exact Option.noConfusion h) c sc j hext
      obtain ⟨hget, _, _⟩ := hinv
      rw [List.getElem?_map] at hget
      rcases hj : (blockFor exs na)[j]? with _ | e2
      · rw [hj] at hget; exact Option.noConfusion hget
      · rw [List.get?_eq_getElem?, hj] at hm
        exact Option.noConfusion hm
  · intro exs na e hm
    rw [matchAuthor] at hm
    rcases hext : extractOne (normalizeAuthorName na.name)
        ((blockFor exs na).map (fun e => normalizeAuthorNameOpt e.name)) 90 with _ | ⟨c, sc, j⟩
    · rw [hext] at hm; exact Option.noConfusion hm
    · rw [hext] at hm
      dsimp only at hm
      rw [List.get?_eq_getElem?] at hm
      have hinv := extractOneGo_some_inv (normalizeAuthorName na.name) 90
        ((blockFor exs na).map (fun e => normalizeAuthorNameOpt e.name)) _ 0 none
        (by rw [List.drop_zero]) (by intro _ _ _ h; exact Option.noConfusion h) c sc j hext
      obtain ⟨hget, hsc, hcut⟩ := hinv
      rw [List.getElem?_map, hm] at hget
      have hce : normalizeAuthorNameOpt e.name = c := by
        simpa using hget
      refine ⟨List.getElem?_mem hm, ?_⟩
      rw [le90_fuzzRatio_iff, hce, ← hsc]
      exact hcut
  · rw [fuzzRatio, show fuzzScoreP (normalizeAuthorName (str "John Smith"))
      (normalizeAuthorName (str "John Smith")) = (2000, 20) from by decide]
    norm_num


/-- C3 (witness): the threshold rule applied to the exact-match pair — the
matcher reports the existing "John Smith" row for the new "John Smith", and
the rule yields block membership and a score of at least 90. -/
theorem author_match_threshold_witness :
    exJohnSmith ∈ blockFor [exJohnSmith] newJohnSmith ∧
    (90 : ℚ) ≤ fuzzRatio (normalizeAuthorName newJohnSmith.name)
      (normalizeAuthorNameOpt exJohnSmith.name) :=
  author_match_threshold_amended.2.1 [exJohnSmith] newJohnSmith exJohnSmith (by decide)

/-! ### The article field-merge policy -/

/-- C1 (amended): on a normalized-title match, the merged article takes
`uid` from the existing side; the optional columns (`publication_date`,
`abstract`, `doi`, `pmid`, `europmc_id`, `isbns`, `url`) and the flags
(`is_bbp`, `is_published`) follow the existing-first rule (the SERP side is
null for all of them except `url` and the flags); `citations` is the maximum
when both sides are present, else whichever side has a value, else 0.  The
two amendments forced by the code: `source` is the concatenation
`serp_<existing source>` when both sides are present (not the existing
value), and `title` is the existing title stripped of surrounding
whitespace.  The concrete scenario holds: existing
`{uid: "a1", doi: "d1", citations: 5}` merged with new
`{uid: "serp1", doi: None, citations: 12}` yields
`{uid: "a1", doi: "d1", citations: 12}`. -/
theorem article_merge_field_precedence_amended :
    (∀ (s : SerpArticle) (e : ExistArticle),
      (mergeArticleRow (some s, some e)).uid = e.uid ∧
      (mergeArticleRow (some s, some e)).source = some (str "serp_" ++ e.source) ∧
      (mergeArticleRow (some s, some e)).title = some (stripBoth isSpaceCp e.title) ∧
      (mergeArticleRow (some s, some e)).is_bbp = some e.is_bbp ∧
      (mergeArticleRow (some s, some e)).is_published = some e.is_published ∧
      (mergeArticleRow (some s, some e)).publication_date = e.publication_date ∧
      (mergeArticleRow (some s, some e)).abstract = e.abstract ∧
      (mergeArticleRow (some s, some e)).doi = e.doi ∧
      (mergeArticleRow (some s, some e)).pmid = e.pmid ∧
      (mergeArticleRow (some s, some e)).europmc_id = e.europmc_id ∧
      (mergeArticleRow (some s, some e)).isbns = e.isbns ∧
      (mergeArticleRow (some s, some e)).url =
        (match e.url with | some u => some u | none => s.url) ∧
      (mergeArticleRow (some s, some e)).citations =
        (match s.citations, e.citations with
          | some cs, some ce => some (max ce cs)
          | some cs, none => some cs
          | none, some ce => some ce
          | none, none => some 0)) ∧
    processArticles [serpItemT] [exArticleA1] =
      [{ uid := str "a1"
         title := some (str "T")
         source := some (str "serp_europmc")
         is_bbp := some true
         is_published := some true
         publication_date := none
         abstract := none
         doi := some (str "d1")
         pmid := none
         europmc_id := none
         google_scholar_id := some (str "serp1")
         url := none
         isbns := none
         citations := some 12 }] := by
  refine ⟨fun s e => ?_, by decide⟩
  refine ⟨rfl, rfl, rfl, rfl, rfl, ?_, ?_, ?_, ?_, ?_, ?_, ?_, rfl⟩
  · show pickExisting e.publication_date none = e.publication_date
    rcases e.publication_date <;> rfl
  · show pickExisting e.abstract none = e.abstract
    rcases e.abstract <;> rfl
  · show pickExisting e.doi none = e.doi
    rcases e.doi <;> rfl
  · show pickExisting e.pmid none = e.pmid
    rcases e.pmid <;> rfl
  · show pickExisting e.europmc_id none = e.europmc_id
    rcases e.europmc_id <;> rfl
  · show pickExisting e.isbns none = e.isbns
    rcases e.isbns <;> rfl
  · show pickExisting e.url s.url = (match e.url with | some u => some u | none => s.url)
    rcases e.url <;> rfl

end CitationGraph














